import Mathlib

/-!
Verification of the HNDigest core: digest selection, subscription lifecycle,
bounce handling, strategy parsing, and the DynamoDB value encoder.

The Rust source is shallowly embedded: pure functions become Lean functions,
storage-backed code becomes explicit state passing over an in-memory storage
model mirroring `InMemoryStorage` (src/storage/mod.rs), timestamps are modeled
as integers (epoch seconds; digest dates at UTC day granularity, since digest
keys are `%F` datestamps and the "yesterday" offset is exactly 24 hours), and
Rust `String` is modeled as `String`, except where code parses character by
character, where `List Char` is used.
-/

set_option maxHeartbeats 1000000

/-- Embeds `types.rs::Post`. `points` is the `i32` points field (modeled as
`Int`; no arithmetic overflows it in the embedded code). -/
structure Post where
  object_id : String
  title : String
  url : Option String
  points : Int
  created_at : String
deriving DecidableEq, Repr

/-- Embeds `strategies.rs::TOP_N_VALUES = &[10, 20, 50]`. -/
def TOP_N_VALUES : List Nat := [10, 20, 50]

/-- Embeds `strategies.rs::POINT_THRESHOLD_VALUES = &[500, 250, 100]`. -/
def POINT_THRESHOLD_VALUES : List Int := [500, 250, 100]

/-- Embeds `strategies.rs::DigestStrategy`. -/
inductive DigestStrategy where
  | topN (n : Nat)
  | overPointThreshold (t : Int)
deriving DecidableEq, Repr

/-- Embeds `DigestStrategy::all()`: the TopN strategies followed by the
point-threshold strategies, in configured order. -/
def DigestStrategy.all : List DigestStrategy :=
  TOP_N_VALUES.map DigestStrategy.topN
    ++ POINT_THRESHOLD_VALUES.map DigestStrategy.overPointThreshold

/-- Embeds `DigestStrategy::select`: `TopN(n)` takes the first `n` posts of its
input, `OverPointThreshold(t)` keeps the posts with `points >= t`. -/
def DigestStrategy.select (s : DigestStrategy) (posts : List Post) : List Post :=
  match s with
  | .topN n => posts.take n
  | .overPointThreshold t => posts.filter (fun p => decide (t ≤ p.points))

/-! Decimal printing and parsing, embedding Rust's integer `Display` and
`str::parse`. `natCharsAux` is fuel-based so that it reduces on literals; fuel
30 covers every value the code prints (`usize`/`i32`/`i64`/`u64` magnitudes are
all below `10^30`). -/

/-- Prints the decimal digits of `n`, most significant first, for `n < 10^fuel`. -/
def natCharsAux : Nat → Nat → List Char
  | 0, _ => []
  | fuel + 1, n =>
    if n < 10 then [Nat.digitChar n]
    else natCharsAux fuel (n / 10) ++ [Nat.digitChar (n % 10)]

/-- Embeds Rust's `u64`/`usize` decimal `Display` (for magnitudes below `10^30`,
which covers every integer the embedded code prints). -/
def natChars (n : Nat) : List Char := natCharsAux 30 n

/-- Embeds Rust's signed decimal `Display`: a `-` sign for negatives, then digits. -/
def intChars (i : Int) : List Char :=
  if i < 0 then '-' :: natChars i.natAbs else natChars i.toNat

/-- Accumulating decimal parser: consumes decimal digits left to right, failing
on any non-digit character. -/
def parseDigitsAux : Nat → List Char → Option Nat
  | acc, [] => some acc
  | acc, c :: cs =>
    if c.isDigit then parseDigitsAux (acc * 10 + (c.toNat - 48)) cs else none

/-- Parses a non-empty all-digit string to a natural number. -/
def parseNatDigits (cs : List Char) : Option Nat :=
  if cs.isEmpty then none else parseDigitsAux 0 cs

/-- Embeds Rust's `str::parse::<usize>`: an optional leading `+`, then one or
more decimal digits, with a 64-bit overflow check. -/
def parseUsize (cs : List Char) : Option Nat :=
  let body := match cs with
    | c :: rest => if c = '+' then rest else cs
    | [] => []
  (parseNatDigits body).bind fun n => if n < 2 ^ 64 then some n else none

/-- Embeds Rust's `str::parse::<i32>`: an optional sign, then one or more
decimal digits, with the `i32` range check. -/
def parseI32 (cs : List Char) : Option Int :=
  match cs with
  | [] => none
  | c :: rest =>
    if c = '-' then
      (parseNatDigits rest).bind fun n =>
        if (n : Int) ≤ 2 ^ 31 then some (-(n : Int)) else none
    else
      let body := if c = '+' then rest else cs
      (parseNatDigits body).bind fun n =>
        if (n : Int) < 2 ^ 31 then some (n : Int) else none

/-- Embeds `Display for DigestStrategy`: `TOP_N#{n}` / `POINT_THRESHOLD#{t}`. -/
def strategyChars : DigestStrategy → List Char
  | .topN n => "TOP_N#".toList ++ natChars n
  | .overPointThreshold t => "POINT_THRESHOLD#".toList ++ intChars t

/-- Canonical strategy string, used as part of the digest storage key
(`strategy.to_string()` in `digest_builder.rs`). -/
def strategyName (s : DigestStrategy) : String := String.mk (strategyChars s)

/-- Embeds `FromStr for DigestStrategy` (strategies.rs:59-87): strip the
`TOP_N#` or `POINT_THRESHOLD#` prefix, parse the numeral, and reject values
outside the configured set or strings with neither prefix. -/
def strategyFromStr (s : List Char) : Except String DigestStrategy :=
  if "TOP_N#".toList.isPrefixOf s then
    match parseUsize (s.drop 6) with
    | none => .error "invalid digit found in string"
    | some n =>
      if n ∈ TOP_N_VALUES then .ok (.topN n)
      else .error "Invalid TOP_N value"
  else if "POINT_THRESHOLD#".toList.isPrefixOf s then
    match parseI32 (s.drop 16) with
    | none => .error "invalid digit found in string"
    | some t =>
      if t ∈ POINT_THRESHOLD_VALUES then .ok (.overPointThreshold t)
      else .error "Invalid POINT_THRESHOLD value"
  else .error "Invalid strategy format"

deriving instance DecidableEq for Except

/-! Storage model. The `Storage` trait's in-memory implementation
(`InMemoryStorage`, src/storage/mod.rs) backs the stateful business logic;
its `HashMap`s are modeled as association lists whose insert replaces any
existing binding for the key, so keys stay unique just as in a `HashMap`. -/

/-- Embeds `types.rs::Subscriber`. `unsubscribe_token` models the non-empty
`Token` newtype as a plain string; `subscribed_at` is an epoch timestamp. -/
structure Subscriber where
  email : String
  strategy : DigestStrategy
  subscribed_at : Int
  unsubscribe_token : String
deriving DecidableEq, Repr

/-- Embeds `Subscriber::new(email, strategy)`. The effects `Utc::now()` and
`Token::generate()` are passed explicitly as `fresh = (token, now)`. -/
def Subscriber.new (email : String) (strategy : DigestStrategy)
    (fresh : String × Int) : Subscriber :=
  { email := email, strategy := strategy, subscribed_at := fresh.2,
    unsubscribe_token := fresh.1 }

/-- Embeds `types.rs::PendingSubscription`. -/
structure PendingSubscription where
  email : String
  token : String
  strategy : DigestStrategy
  created_at : Int
  expires_at : Int
deriving DecidableEq, Repr

/-- Embeds `PendingSubscription::new`: a fresh token and a 24-hour expiry
(`now + 24 * 3600` epoch seconds); `token` and `now` passed explicitly. -/
def PendingSubscription.new (email : String) (strategy : DigestStrategy)
    (token : String) (now : Int) : PendingSubscription :=
  { email := email, token := token, strategy := strategy, created_at := now,
    expires_at := now + 24 * 3600 }

/-- Replaces the binding for `k` (HashMap-style insert). -/
def insertAssoc {κ ν : Type} [DecidableEq κ] (k : κ) (v : ν)
    (l : List (κ × ν)) : List (κ × ν) :=
  (k, v) :: l.filter (fun kv => decide (kv.1 ≠ k))

/-- Looks up the binding for `k`. -/
def lookupAssoc {κ ν : Type} [DecidableEq κ] (k : κ) :
    List (κ × ν) → Option ν
  | [] => none
  | (k', v) :: l => if k' = k then some v else lookupAssoc k l

/-- Removes the binding for `k` (HashMap-style remove). -/
def eraseAssoc {κ ν : Type} [DecidableEq κ] (k : κ)
    (l : List (κ × ν)) : List (κ × ν) :=
  l.filter (fun kv => decide (kv.1 ≠ k))

/-- Number of bindings stored under key `k`. -/
def countKey {κ ν : Type} [DecidableEq κ] (k : κ) (l : List (κ × ν)) : Nat :=
  (l.filter (fun kv => decide (kv.1 = k))).length

/-- Embeds `InMemoryStorage` (src/storage/mod.rs): subscribers and pending
subscriptions keyed by lowercased email, digests keyed by
`(strategy string, date)`. -/
structure InMemoryStorage where
  subscribers : List (String × Subscriber)
  pending : List (String × PendingSubscription)
  digests : List ((String × Int) × List Post)
deriving DecidableEq, Repr

/-- Storage key for an email: `email.to_string().to_lowercase()`, modeled as
per-character lowercasing (ASCII lowering of the external standard-library
function; the embedded claims do not depend on Unicode case folding). -/
def emailKey (email : String) : String := String.mk (email.toList.map Char.toLower)

namespace InMemoryStorage

/-- Embeds `InMemoryStorage::upsert_subscriber`. -/
def upsert_subscriber (st : InMemoryStorage) (s : Subscriber) : InMemoryStorage :=
  { st with subscribers := insertAssoc (emailKey s.email) s st.subscribers }

/-- Embeds `InMemoryStorage::get_subscriber_by_email`. -/
def get_subscriber_by_email (st : InMemoryStorage) (email : String) :
    Option Subscriber :=
  lookupAssoc (emailKey email) st.subscribers

/-- Embeds `InMemoryStorage::remove_subscriber`. -/
def remove_subscriber (st : InMemoryStorage) (email : String) : InMemoryStorage :=
  { st with subscribers := eraseAssoc (emailKey email) st.subscribers }

/-- Embeds `InMemoryStorage::get_subscriber_by_unsubscribe_token`:
`values().find(|s| s.unsubscribe_token == *token)` — the first stored
subscriber whose token matches, with no error channel. -/
def get_subscriber_by_unsubscribe_token (st : InMemoryStorage)
    (token : String) : Option Subscriber :=
  (st.subscribers.map Prod.snd).find? (fun s => decide (s.unsubscribe_token = token))

/-- Embeds `InMemoryStorage::upsert_pending_subscription`. -/
def upsert_pending_subscription (st : InMemoryStorage)
    (p : PendingSubscription) : InMemoryStorage :=
  { st with pending := insertAssoc (emailKey p.email) p st.pending }

/-- Embeds `InMemoryStorage::get_pending_subscription`. -/
def get_pending_subscription (st : InMemoryStorage) (email : String) :
    Option PendingSubscription :=
  lookupAssoc (emailKey email) st.pending

/-- Embeds `InMemoryStorage::save_digest`. -/
def save_digest (st : InMemoryStorage) (name : String) (date : Int)
    (posts : List Post) : InMemoryStorage :=
  { st with digests := insertAssoc (name, date) posts st.digests }

/-- Embeds `InMemoryStorage::fetch_digest`. -/
def fetch_digest (st : InMemoryStorage) (name : String) (date : Int) :
    Option (List Post) :=
  lookupAssoc (name, date) st.digests

end InMemoryStorage

/-! Digest builder (src/digest_builder.rs). -/

/-- Embeds `digest_builder.rs::filter_sent_posts`: with no prior digest all
posts are kept; otherwise posts whose `object_id` occurs in the prior digest
are dropped. -/
def filter_sent_posts (all_posts : List Post)
    (yesterday_digest : Option (List Post)) : List Post :=
  match yesterday_digest with
  | none => all_posts
  | some digest_posts =>
    all_posts.filter (fun p =>
      decide (p.object_id ∉ digest_posts.map Post.object_id))

/-- Comparator of `build_digest`'s sort: `|a, b| b.points.cmp(&a.points)`,
i.e. `a` may precede `b` when `b.points ≤ a.points` (descending). -/
def pointsDescLE (a b : Post) : Bool := decide (b.points ≤ a.points)

/-- Embeds `DigestBuilder::build_digest`: fetch yesterday's digest for the
strategy, drop already-sent posts, stable-sort by points descending (Rust's
`sort_by` is a stable sort, embedded as `List.mergeSort`), apply the
strategy's selection, persist the result under `(strategy, date)`, and return
it. Dates are at UTC day granularity, so yesterday is `date - 1`. -/
def build_digest (st : InMemoryStorage) (strategy : DigestStrategy)
    (date : Int) (posts : List Post) : List Post × InMemoryStorage :=
  let name := strategyName strategy
  let yesterday_digest := st.fetch_digest name (date - 1)
  let unsent_posts := filter_sent_posts posts yesterday_digest
  let sorted_posts := unsent_posts.mergeSort pointsDescLE
  let selected_posts := strategy.select sorted_posts
  (selected_posts, st.save_digest name date selected_posts)

/-! Subscription lifecycle (src/subscribe.rs). -/

/-- Embeds `subscribe.rs::update_subscription_strategy`: write back the
existing subscriber with only the strategy replaced, return the old strategy. -/
def update_subscription_strategy (st : InMemoryStorage) (existing : Subscriber)
    (new_strategy : DigestStrategy) : DigestStrategy × InMemoryStorage :=
  let old_strategy := existing.strategy
  let updated := { existing with strategy := new_strategy }
  (old_strategy, st.upsert_subscriber updated)

/-- Embeds `subscribe.rs::verify_subscription`: look up the pending
subscription by email (absent or wrong token yields `none` with storage
untouched), otherwise create and upsert a subscriber built from the pending
record; `fresh = (token, now)` supplies `Subscriber::new`'s generated data. -/
def verify_subscription (fresh : String × Int) (st : InMemoryStorage)
    (email : String) (token : String) : Option Subscriber × InMemoryStorage :=
  match st.get_pending_subscription email with
  | none => (none, st)
  | some pending =>
    if pending.token ≠ token then (none, st)
    else
      let subscriber := Subscriber.new pending.email pending.strategy fresh
      (some subscriber, st.upsert_subscriber subscriber)

/-! Bounce and complaint handling (src/bounce.rs). -/

/-- Embeds `bounce.rs::BouncedRecipient`. -/
structure BouncedRecipient where
  email_address : String
deriving DecidableEq, Repr

/-- Embeds `bounce.rs::BounceNotification`. -/
structure BounceNotification where
  bounce_type : String
  bounced_recipients : List BouncedRecipient
deriving DecidableEq, Repr

/-- Embeds `bounce.rs::ComplainedRecipient`. -/
structure ComplainedRecipient where
  email_address : String
deriving DecidableEq, Repr

/-- Embeds `bounce.rs::ComplaintNotification`. -/
structure ComplaintNotification where
  complained_recipients : List ComplainedRecipient
deriving DecidableEq, Repr

/-- Embeds `bounce.rs::SesNotification`. -/
structure SesNotification where
  event_type : String
  bounce : Option BounceNotification
  complaint : Option ComplaintNotification
deriving DecidableEq, Repr

/-- Embeds `bounce.rs::remove_subscriber`: validate the email string with
`EmailAddress::from_str` (the external `email_address` crate, abstracted as
`valid`); an invalid address is logged and skipped, a valid one is removed
from storage (the in-memory storage's removal cannot fail, matching the Rust
helper's swallowing of storage errors). -/
def bounce_remove_subscriber (valid : String → Option String)
    (st : InMemoryStorage) (email_str : String) : InMemoryStorage :=
  match valid email_str with
  | none => st
  | some email => st.remove_subscriber email

/-- Embeds `bounce.rs::handle_notification`: a `Bounce` event without its
bounce payload (or `Complaint` without its complaint payload) is a hard
error; a `Permanent` bounce or a complaint removes each listed recipient by
email; any other bounce type or event type leaves storage untouched. -/
def handle_notification (valid : String → Option String)
    (notification : SesNotification) (st : InMemoryStorage) :
    Except String InMemoryStorage :=
  if notification.event_type = "Bounce" then
    match notification.bounce with
    | none => .error "Bounce notification missing bounce field"
    | some bounce =>
      if bounce.bounce_type = "Permanent" then
        .ok (bounce.bounced_recipients.foldl
          (fun s r => bounce_remove_subscriber valid s r.email_address) st)
      else .ok st
  else if notification.event_type = "Complaint" then
    match notification.complaint with
    | none => .error "Complaint notification missing complaint field"
    | some complaint =>
      .ok (complaint.complained_recipients.foldl
        (fun s r => bounce_remove_subscriber valid s r.email_address) st)
  else .ok st

/-! DynamoDB value encoding (src/storage/dynamo.rs). `serde_json::Value` is
modeled by `Json`, `aws_sdk_dynamodb::AttributeValue` by `Av`. Integer
numbers carry their mathematical value; a float number (serde's `Float`
variant) is modeled by its decimal source string alone, because the claims
only need that a float number is a different variant from an integer number
(serde's `Number` equality never identifies a `Float` with an integer).
Map entries are kept in list order on both sides. -/

mutual
/-- Models `serde_json::Value`: null, bool, number (integer or float variant),
string, array, object. -/
inductive Json where
  | null : Json
  | bool : Bool → Json
  | num : Int → Json
  | numFloat : List Char → Json
  | str : String → Json
  | arr : JsonList → Json
  | obj : JsonObj → Json

/-- Array payload of a `Json` value. -/
inductive JsonList where
  | nil : JsonList
  | cons : Json → JsonList → JsonList

/-- Object payload of a `Json` value: ordered key/value entries. -/
inductive JsonObj where
  | nil : JsonObj
  | cons : String → Json → JsonObj → JsonObj
end

mutual
/-- Models `AttributeValue` in the variants the encoder uses: `Null`, `Bool`,
`N` (numeric string), `S`, `L`, `M`; `other` stands for the binary/set
variants the decoder's wildcard arm maps to null. -/
inductive Av where
  | Null : Bool → Av
  | Bool : Bool → Av
  | N : List Char → Av
  | S : String → Av
  | L : AvList → Av
  | M : AvMap → Av
  | other : Av

/-- List payload of an `Av` value. -/
inductive AvList where
  | nil : AvList
  | cons : Av → AvList → AvList

/-- Map payload of an `Av` value: ordered key/value entries. -/
inductive AvMap where
  | nil : AvMap
  | cons : String → Av → AvMap → AvMap
end

deriving instance DecidableEq for Json
deriving instance DecidableEq for Av
deriving instance Repr for Json
deriving instance Repr for Av

mutual
/-- Embeds `dynamo.rs::json_to_av`: null to `Null(true)`, bool to `Bool`,
a number to `N` of its decimal string, string to `S`, array to `L`, object
to `M`, recursing into children. -/
def json_to_av : Json → Av
  | .null => .Null true
  | .bool b => .Bool b
  | .num i => .N (intChars i)
  | .numFloat cs => .N cs
  | .str s => .S s
  | .arr l => .L (jsonList_to_av l)
  | .obj m => .M (jsonObj_to_av m)

/-- Encodes each element of an array. -/
def jsonList_to_av : JsonList → AvList
  | .nil => .nil
  | .cons j l => .cons (json_to_av j) (jsonList_to_av l)

/-- Encodes each entry of an object. -/
def jsonObj_to_av : JsonObj → AvMap
  | .nil => .nil
  | .cons k j m => .cons k (json_to_av j) (jsonObj_to_av m)
end

/-- Embeds Rust's `str::parse::<i64>`: optional sign, decimal digits, `i64`
range check. -/
def parseI64 (cs : List Char) : Option Int :=
  match cs with
  | [] => none
  | c :: rest =>
    if c = '-' then
      (parseNatDigits rest).bind fun n =>
        if (n : Int) ≤ 2 ^ 63 then some (-(n : Int)) else none
    else
      let body := if c = '+' then rest else cs
      (parseNatDigits body).bind fun n =>
        if (n : Int) < 2 ^ 63 then some (n : Int) else none

/-- Exponent part of a float literal: `e`/`E`, optional sign, one or more
digits. -/
def isF64Exp (cs : List Char) : Bool :=
  match cs with
  | 'e' :: rest | 'E' :: rest =>
    let body := match rest with
      | c :: r => if c = '-' ∨ c = '+' then r else rest
      | [] => []
    !body.isEmpty && body.all (·.isDigit)
  | _ => false

/-- Body of a float literal after the sign: digits with an optional fraction
and exponent, or the keywords `inf`/`infinity`/`nan` (case-insensitive). -/
def isF64Body (cs : List Char) : Bool :=
  let lowered := cs.map Char.toLower
  if lowered = "inf".toList ∨ lowered = "infinity".toList ∨ lowered = "nan".toList then
    true
  else
    let d1 := cs.takeWhile (·.isDigit)
    let r1 := cs.dropWhile (·.isDigit)
    match r1 with
    | [] => !d1.isEmpty
    | '.' :: r2 =>
      let d2 := r2.takeWhile (·.isDigit)
      let r3 := r2.dropWhile (·.isDigit)
      (!d1.isEmpty || !d2.isEmpty) && (r3.isEmpty || isF64Exp r3)
    | _ => !d1.isEmpty && isF64Exp r1

/-- Embeds the success condition of Rust's `str::parse::<f64>` (the external
standard-library float grammar): optional sign, then digits with optional
fraction/exponent or an infinity/NaN keyword. -/
def isValidF64 (cs : List Char) : Bool :=
  match cs with
  | [] => false
  | c :: rest => if c = '-' ∨ c = '+' then isF64Body rest else isF64Body cs

mutual
/-- Embeds `dynamo.rs::av_to_json`: `N` strings decode by trying `i64`, then
`f64` (yielding a float number), then falling back to the raw string; `L`/`M`
recurse; the wildcard arm for binary/set variants yields null. -/
def av_to_json : Av → Json
  | .Null _ => .null
  | .Bool b => .bool b
  | .N cs =>
    match parseI64 cs with
    | some i => .num i
    | none => if isValidF64 cs then .numFloat cs else .str (String.mk cs)
  | .S s => .str s
  | .L l => .arr (avList_to_json l)
  | .M m => .obj (avMap_to_json m)
  | .other => .null

/-- Decodes each element of an `L` list. -/
def avList_to_json : AvList → JsonList
  | .nil => .nil
  | .cons a l => .cons (av_to_json a) (avList_to_json l)

/-- Decodes each entry of an `M` map. -/
def avMap_to_json : AvMap → JsonObj
  | .nil => .nil
  | .cons k a m => .cons k (av_to_json a) (avMap_to_json m)
end

mutual
/-- Json documents whose numbers are all integer numbers in the `i64` range
(no float numbers). -/
def jsonIntDoc : Json → Bool
  | .null => true
  | .bool _ => true
  | .num i => decide (-(2 ^ 63) ≤ i ∧ i < 2 ^ 63)
  | .numFloat _ => false
  | .str _ => true
  | .arr l => jsonListIntDoc l
  | .obj m => jsonObjIntDoc m

/-- The array version of `jsonIntDoc`. -/
def jsonListIntDoc : JsonList → Bool
  | .nil => true
  | .cons j l => jsonIntDoc j && jsonListIntDoc l

/-- The object version of `jsonIntDoc`. -/
def jsonObjIntDoc : JsonObj → Bool
  | .nil => true
  | .cons _ j m => jsonIntDoc j && jsonObjIntDoc m
end

/-- Embeds `LambdaStorage::get_subscriber_by_unsubscribe_token`
(dynamo.rs:107-136) over the item list returned by the token-index query
(the AWS query itself is external): zero items is `Ok(None)`, one item is
decoded with `subscriber_from_item` (abstracted as `decode`), and two or more
items is a data-integrity error. -/
def lambda_get_subscriber_by_unsubscribe_token {ι : Type}
    (decode : ι → Except String Subscriber) (items : List ι) :
    Except String (Option Subscriber) :=
  match items with
  | [] => .ok none
  | [item] => (decode item).map some
  | _ => .error "Data integrity error: subscribers share token; tokens must be unique."

/-! Reference stable sort. The spec (§4.1 step 3) asks for a stable sort by
score descending; `specInsertionSort` is the textbook stable insertion sort
(an element is inserted before the first element it may precede, so of two
equal-points posts the earlier input one stays first), used as the reference
against which the builder's `sort_by` (embedded as `List.mergeSort`, also
stable) is compared. -/

/-- Inserts `a` before the first element `b` with `le a b`. -/
def specOrderedInsert {α : Type} (le : α → α → Bool) (a : α) :
    List α → List α
  | [] => [a]
  | b :: l => if le a b then a :: b :: l else b :: specOrderedInsert le a l

/-- Stable insertion sort with respect to `le`. -/
def specInsertionSort {α : Type} (le : α → α → Bool) : List α → List α
  | [] => []
  | a :: l => specOrderedInsert le a (specInsertionSort le l)

theorem specOrderedInsert_append {α : Type} (le : α → α → Bool) (a : α)
    (l₁ l₂ : List α) (h : ∀ b ∈ l₁, le a b = false) :
    specOrderedInsert le a (l₁ ++ l₂) = l₁ ++ specOrderedInsert le a l₂ := by
  induction l₁ with
  | nil => simp
  | cons b l₁ ih =>
    have hb : le a b = false := h b (List.mem_cons_self b l₁)
    simp only [List.cons_append, specOrderedInsert, hb]
    simp only [Bool.false_eq_true, if_false, List.cons.injEq, true_and]
    exact ih fun c hc => h c (List.mem_cons_of_mem b hc)

theorem specOrderedInsert_of_forall_le {α : Type} (le : α → α → Bool) (a : α)
    (l : List α) (h : ∀ b ∈ l, le a b = true) :
    specOrderedInsert le a l = a :: l := by
  cases l with
  | nil => rfl
  | cons b l => simp [specOrderedInsert, h b (List.mem_cons_self b l)]

/-- Rust's `sort_by` (a stable merge sort) and the reference stable insertion
sort agree for every transitive total comparator. -/
theorem mergeSort_eq_specInsertionSort {α : Type} (le : α → α → Bool)
    (htrans : ∀ a b c, le a b → le b c → le a c)
    (htotal : ∀ a b, le a b || le b a) (l : List α) :
    l.mergeSort le = specInsertionSort le l := by
  induction l with
  | nil => simp [specInsertionSort]
  | cons a l ih =>
    obtain ⟨l₁, l₂, h₁, h₂, h₃⟩ := List.mergeSort_cons htrans htotal a l
    have hs := List.sorted_mergeSort htrans htotal (a :: l)
    rw [h₁] at hs
    have hal₂ : ∀ c ∈ l₂, le a c = true := by
      have h' := (List.pairwise_append.mp hs).2.1
      exact fun c hc => (List.pairwise_cons.mp h').1 c hc
    have hl₁ : ∀ b ∈ l₁, le a b = false := by
      intro b hb
      simpa using h₃ b hb
    simp only [specInsertionSort, ← ih, h₂]
    rw [specOrderedInsert_append le a l₁ l₂ hl₁,
      specOrderedInsert_of_forall_le le a l₂ hal₂, h₁]

theorem pointsDescLE_trans (a b c : Post) :
    pointsDescLE a b → pointsDescLE b c → pointsDescLE a c := by
  simp only [pointsDescLE, decide_eq_true_eq]
  exact fun h₁ h₂ => le_trans h₂ h₁

theorem pointsDescLE_total (a b : Post) :
    pointsDescLE a b || pointsDescLE b a := by
  simp only [pointsDescLE, Bool.or_eq_true, decide_eq_true_eq]
  exact (Int.le_total a.points b.points).symm

/-- Reference definition of digest selection following the spec's words
(§4.1 steps 3-4): stable-sort the unexcluded candidates by points descending,
then take the first `n` for `TopN(n)`, or keep exactly the posts with
`points ≥ t` for `PointThreshold(t)`. -/
def buildDigestSpec (prior : Option (List Post)) (strategy : DigestStrategy)
    (posts : List Post) : List Post :=
  let sorted := specInsertionSort pointsDescLE (filter_sent_posts posts prior)
  match strategy with
  | .topN n => sorted.take n
  | .overPointThreshold t => sorted.filter (fun p => decide (t ≤ p.points))

/-! Helper lemmas about the association-list storage operations. -/

theorem lookupAssoc_insertAssoc_self {κ ν : Type} [DecidableEq κ] (k : κ)
    (v : ν) (l : List (κ × ν)) : lookupAssoc k (insertAssoc k v l) = some v := by
  simp [lookupAssoc, insertAssoc]

theorem countKey_insertAssoc_self {κ ν : Type} [DecidableEq κ] (k : κ)
    (v : ν) (l : List (κ × ν)) : countKey k (insertAssoc k v l) = 1 := by
  have h : ∀ kv : κ × ν, (decide (kv.1 = k) && decide (kv.1 ≠ k)) = false := by
    intro kv
    by_cases hkv : kv.1 = k <;> simp [hkv]
  simp [countKey, insertAssoc, List.filter_filter, h]

theorem mem_select {s : DigestStrategy} {posts : List Post} {p : Post}
    (h : p ∈ s.select posts) : p ∈ posts := by
  cases s with
  | topN n => exact List.mem_of_mem_take h
  | overPointThreshold t => exact List.mem_of_mem_filter h

/-- C1: the digest built (and persisted) for a strategy and date contains no
post whose `object_id` appears in the stored digest of the previous day for
the same strategy, and when no previous-day digest is stored nothing is
excluded (the result is the strategy's selection over all sorted candidates). -/
theorem build_digest_excludes_yesterday (st : InMemoryStorage)
    (strategy : DigestStrategy) (date : Int) (posts : List Post) :
    (∀ yd, st.fetch_digest (strategyName strategy) (date - 1) = some yd →
      ∀ p ∈ (build_digest st strategy date posts).1,
        p.object_id ∉ yd.map Post.object_id)
    ∧ (st.fetch_digest (strategyName strategy) (date - 1) = none →
        (build_digest st strategy date posts).1
          = strategy.select (posts.mergeSort pointsDescLE))
    ∧ (build_digest st strategy date posts).2.fetch_digest
        (strategyName strategy) date = some (build_digest st strategy date posts).1 := by
  refine ⟨?_, ?_, ?_⟩
  · intro yd hyd p hp
    simp only [build_digest, hyd] at hp
    have hp' : p ∈ filter_sent_posts posts (some yd) :=
      List.mem_mergeSort.mp (mem_select hp)
    have := List.of_mem_filter hp'
    exact of_decide_eq_true this
  · intro hnone
    simp [build_digest, hnone, filter_sent_posts]
  · simp only [build_digest, InMemoryStorage.save_digest, InMemoryStorage.fetch_digest]
    exact lookupAssoc_insertAssoc_self _ _ _

/-- Witness for C1 at the spec's §8 scenario: yesterday's digest holds post
`a`; candidates `a, b, c`; the TopN(2) digest is `[b, c]` and contains no id
from yesterday. -/
theorem build_digest_excludes_yesterday_witness :
    (∀ p ∈ (build_digest
        ⟨[], [], [(("TOP_N#2", 0), [⟨"a", "Post a", none, 500, "d"⟩])]⟩
        (.topN 2) 1
        [⟨"a", "Post a", none, 500, "d"⟩, ⟨"b", "Post b", none, 200, "d"⟩,
         ⟨"c", "Post c", none, 100, "d"⟩]).1,
      p.object_id ∉ [⟨"a", "Post a", none, 500, "d"⟩].map Post.object_id) := by
  have h := (build_digest_excludes_yesterday
    ⟨[], [], [(("TOP_N#2", 0), [⟨"a", "Post a", none, 500, "d"⟩])]⟩
    (.topN 2) 1
    [⟨"a", "Post a", none, 500, "d"⟩, ⟨"b", "Post b", none, 200, "d"⟩,
     ⟨"c", "Post c", none, 100, "d"⟩]).1
  exact h [⟨"a", "Post a", none, 500, "d"⟩] (by decide)

/-- C2: `build_digest` returns exactly the reference pipeline
`buildDigestSpec` (stable sort by points descending over the unexcluded
candidates, then TopN prefix or threshold filter), and for `TopN(n)` the
result has at most `n` posts and is non-increasing by points. -/
theorem build_digest_matches_spec (st : InMemoryStorage)
    (strategy : DigestStrategy) (date : Int) (posts : List Post) :
    (build_digest st strategy date posts).1
      = buildDigestSpec (st.fetch_digest (strategyName strategy) (date - 1))
          strategy posts
    ∧ (∀ n, strategy = .topN n →
        (build_digest st strategy date posts).1.length ≤ n
        ∧ (build_digest st strategy date posts).1.Pairwise
            (fun a b => b.points ≤ a.points)) := by
  constructor
  · simp only [build_digest, buildDigestSpec,
      mergeSort_eq_specInsertionSort pointsDescLE pointsDescLE_trans pointsDescLE_total]
    cases strategy <;> rfl
  · rintro n rfl
    constructor
    · simp only [build_digest, DigestStrategy.select]
      exact List.length_take_le n _
    · have hs := List.sorted_mergeSort pointsDescLE_trans pointsDescLE_total
        (filter_sent_posts posts
          (st.fetch_digest (strategyName (DigestStrategy.topN n)) (date - 1)))
      have hs' := hs.sublist (List.take_sublist n _)
      simp only [build_digest, DigestStrategy.select]
      exact hs'.imp fun h => by simpa [pointsDescLE] using h

/-- Witness for C2 at the spec's §8 scenarios: TopN(2) over candidates
`a:500, b:200, c:100` with yesterday's digest `[a]`. -/
theorem build_digest_matches_spec_witness :
    (build_digest
        ⟨[], [], [(("TOP_N#2", 0), [⟨"a", "Post a", none, 500, "d"⟩])]⟩
        (.topN 2) 1
        [⟨"a", "Post a", none, 500, "d"⟩, ⟨"b", "Post b", none, 200, "d"⟩,
         ⟨"c", "Post c", none, 100, "d"⟩]).1.length ≤ 2
    ∧ (build_digest
        ⟨[], [], [(("TOP_N#2", 0), [⟨"a", "Post a", none, 500, "d"⟩])]⟩
        (.topN 2) 1
        [⟨"a", "Post a", none, 500, "d"⟩, ⟨"b", "Post b", none, 200, "d"⟩,
         ⟨"c", "Post c", none, 100, "d"⟩]).1.Pairwise
        (fun a b => b.points ≤ a.points) :=
  (build_digest_matches_spec
    ⟨[], [], [(("TOP_N#2", 0), [⟨"a", "Post a", none, 500, "d"⟩])]⟩
    (.topN 2) 1
    [⟨"a", "Post a", none, 500, "d"⟩, ⟨"b", "Post b", none, 200, "d"⟩,
     ⟨"c", "Post c", none, 100, "d"⟩]).2 2 rfl

/-- C3: `verify_subscription` yields the same not-found value — `none` with
storage untouched (`Ok(None)` with no write in Rust) — both when no pending
subscription exists for the email and when one exists with a different
token. -/
theorem verify_subscription_not_found (fresh : String × Int)
    (st : InMemoryStorage) (email token : String) :
    (st.get_pending_subscription email = none →
      verify_subscription fresh st email token = (none, st))
    ∧ (∀ p, st.get_pending_subscription email = some p → p.token ≠ token →
        verify_subscription fresh st email token = (none, st)) := by
  constructor
  · intro h
    simp [verify_subscription, h]
  · intro p h hne
    simp [verify_subscription, h, hne]

/-- Witness for C3: a wrong token and a missing record both return
`(none, st)` on a concrete store. -/
theorem verify_subscription_not_found_witness :
    verify_subscription ("f", 9)
        ⟨[], [("a@x.com", ⟨"a@x.com", "tok", .topN 10, 0, 86400⟩)], []⟩
        "a@x.com" "wrong"
      = (none, ⟨[], [("a@x.com", ⟨"a@x.com", "tok", .topN 10, 0, 86400⟩)], []⟩)
    ∧ verify_subscription ("f", 9) ⟨[], [], []⟩ "b@x.com" "tok"
      = (none, ⟨[], [], []⟩) :=
  ⟨(verify_subscription_not_found ("f", 9)
      ⟨[], [("a@x.com", ⟨"a@x.com", "tok", .topN 10, 0, 86400⟩)], []⟩
      "a@x.com" "wrong").2 ⟨"a@x.com", "tok", .topN 10, 0, 86400⟩
      (by decide) (by decide),
   (verify_subscription_not_found ("f", 9) ⟨[], [], []⟩ "b@x.com" "tok").1
      (by decide)⟩

/-- C4: with a pending subscription stored for the email, two successive
calls of `verify_subscription` with the correct token both succeed (the
pending record is not consumed, so the second call again finds it), and
afterwards exactly one subscriber record is stored under the email's key —
the upsert is keyed by email, so no duplicate is created. -/
theorem verify_subscription_twice (fresh₁ fresh₂ : String × Int)
    (st : InMemoryStorage) (email : String) (p : PendingSubscription)
    (h : st.get_pending_subscription email = some p) :
    (verify_subscription fresh₁ st email p.token).1
      = some (Subscriber.new p.email p.strategy fresh₁)
    ∧ (verify_subscription fresh₂
        (verify_subscription fresh₁ st email p.token).2 email p.token).1
      = some (Subscriber.new p.email p.strategy fresh₂)
    ∧ countKey (emailKey p.email)
        (verify_subscription fresh₂
          (verify_subscription fresh₁ st email p.token).2 email p.token).2.subscribers
      = 1 := by
  have h₁ : verify_subscription fresh₁ st email p.token
      = (some (Subscriber.new p.email p.strategy fresh₁),
         st.upsert_subscriber (Subscriber.new p.email p.strategy fresh₁)) := by
    simp [verify_subscription, h]
  have hp₂ : (st.upsert_subscriber
      (Subscriber.new p.email p.strategy fresh₁)).get_pending_subscription email
      = some p := h
  have h₂ : verify_subscription fresh₂
      (st.upsert_subscriber (Subscriber.new p.email p.strategy fresh₁)) email p.token
      = (some (Subscriber.new p.email p.strategy fresh₂),
         (st.upsert_subscriber (Subscriber.new p.email p.strategy fresh₁)).upsert_subscriber
           (Subscriber.new p.email p.strategy fresh₂)) := by
    simp [verify_subscription, hp₂]
  refine ⟨by rw [h₁], by rw [h₁, h₂], ?_⟩
  rw [h₁, h₂]
  exact countKey_insertAssoc_self _ _ _

/-- Witness for C4 on a concrete store: both calls succeed and one subscriber
record remains. -/
theorem verify_subscription_twice_witness :
    (verify_subscription ("t1", 1)
        ⟨[], [("a@x.com", ⟨"a@x.com", "tok", .topN 10, 0, 86400⟩)], []⟩
        "a@x.com" "tok").1
      = some (Subscriber.new "a@x.com" (.topN 10) ("t1", 1))
    ∧ (verify_subscription ("t2", 2)
        (verify_subscription ("t1", 1)
          ⟨[], [("a@x.com", ⟨"a@x.com", "tok", .topN 10, 0, 86400⟩)], []⟩
          "a@x.com" "tok").2 "a@x.com" "tok").1
      = some (Subscriber.new "a@x.com" (.topN 10) ("t2", 2))
    ∧ countKey (emailKey "a@x.com")
        (verify_subscription ("t2", 2)
          (verify_subscription ("t1", 1)
            ⟨[], [("a@x.com", ⟨"a@x.com", "tok", .topN 10, 0, 86400⟩)], []⟩
            "a@x.com" "tok").2 "a@x.com" "tok").2.subscribers
      = 1 :=
  verify_subscription_twice ("t1", 1) ("t2", 2)
    ⟨[], [("a@x.com", ⟨"a@x.com", "tok", .topN 10, 0, 86400⟩)], []⟩
    "a@x.com" ⟨"a@x.com", "tok", .topN 10, 0, 86400⟩ (by decide)

/-- C5: `update_subscription_strategy` returns the previous strategy and
stores, under the same email key, a record whose email, `subscribed_at` and
`unsubscribe_token` are unchanged and whose strategy is the new one; exactly
one record is stored for that email afterwards and pending subscriptions are
untouched. -/
theorem update_subscription_strategy_frame (st : InMemoryStorage)
    (existing : Subscriber) (new_strategy : DigestStrategy) :
    (update_subscription_strategy st existing new_strategy).1 = existing.strategy
    ∧ (update_subscription_strategy st existing new_strategy).2.get_subscriber_by_email
        existing.email = some { existing with strategy := new_strategy }
    ∧ countKey (emailKey existing.email)
        (update_subscription_strategy st existing new_strategy).2.subscribers = 1
    ∧ (update_subscription_strategy st existing new_strategy).2.pending = st.pending := by
  refine ⟨rfl, ?_, ?_, rfl⟩
  · simp only [update_subscription_strategy, InMemoryStorage.upsert_subscriber,
      InMemoryStorage.get_subscriber_by_email]
    exact lookupAssoc_insertAssoc_self _ _ _
  · exact countKey_insertAssoc_self _ _ _

/-- C10: `verify_subscription` never consults `expires_at` — a pending
subscription still present in storage whose expiry lies strictly before the
call time is verified all the same: the call returns a subscriber and writes
it to storage. -/
theorem verify_subscription_ignores_expiry (fresh : String × Int)
    (st : InMemoryStorage) (email : String) (p : PendingSubscription)
    (h : st.get_pending_subscription email = some p)
    (_hexpired : p.expires_at < fresh.2) :
    (verify_subscription fresh st email p.token).1
      = some (Subscriber.new p.email p.strategy fresh)
    ∧ (verify_subscription fresh st email p.token).2.get_subscriber_by_email
        p.email = some (Subscriber.new p.email p.strategy fresh) := by
  have h₁ : verify_subscription fresh st email p.token
      = (some (Subscriber.new p.email p.strategy fresh),
         st.upsert_subscriber (Subscriber.new p.email p.strategy fresh)) := by
    simp [verify_subscription, h]
  refine ⟨by rw [h₁], ?_⟩
  rw [h₁]
  simp only [InMemoryStorage.upsert_subscriber, InMemoryStorage.get_subscriber_by_email]
  exact lookupAssoc_insertAssoc_self _ _ _

/-- Witness for C10: a pending record whose expiry (hour 1) is in the past at
call time (hour 2) still verifies. -/
theorem verify_subscription_ignores_expiry_witness :
    (verify_subscription ("t1", 7200)
        ⟨[], [("a@x.com", ⟨"a@x.com", "tok", .topN 10, 0, 3600⟩)], []⟩
        "a@x.com" "tok").1
      = some (Subscriber.new "a@x.com" (.topN 10) ("t1", 7200))
    ∧ (verify_subscription ("t1", 7200)
        ⟨[], [("a@x.com", ⟨"a@x.com", "tok", .topN 10, 0, 3600⟩)], []⟩
        "a@x.com" "tok").2.get_subscriber_by_email "a@x.com"
      = some (Subscriber.new "a@x.com" (.topN 10) ("t1", 7200)) :=
  verify_subscription_ignores_expiry ("t1", 7200)
    ⟨[], [("a@x.com", ⟨"a@x.com", "tok", .topN 10, 0, 3600⟩)], []⟩
    "a@x.com" ⟨"a@x.com", "tok", .topN 10, 0, 3600⟩ (by decide) (by decide)

/-- Counterexample for C6 as stated: the in-memory implementation of
`get_subscriber_by_unsubscribe_token` (src/storage/mod.rs:158-169), with two
stored subscribers sharing the token `"tok"`, returns a silently chosen
record instead of an error — its `values().find(...)` has no error channel at
all. -/
theorem inmemory_token_lookup_counterexample :
    (InMemoryStorage.subscribers
        ⟨[("a@x.com", ⟨"a@x.com", .topN 10, 0, "tok"⟩),
          ("b@x.com", ⟨"b@x.com", .topN 10, 0, "tok"⟩)], [], []⟩
      |>.filter (fun kv => decide (kv.2.unsubscribe_token = "tok"))).length = 2
    ∧ InMemoryStorage.get_subscriber_by_unsubscribe_token
        ⟨[("a@x.com", ⟨"a@x.com", .topN 10, 0, "tok"⟩),
          ("b@x.com", ⟨"b@x.com", .topN 10, 0, "tok"⟩)], [], []⟩ "tok"
      = some ⟨"a@x.com", .topN 10, 0, "tok"⟩ := by
  constructor
  · decide
  · decide

/-- C6 (amended): the DynamoDB-backed lookup
`LambdaStorage::get_subscriber_by_unsubscribe_token` returns `Ok(None)` on
zero matching items, the decoded subscriber on exactly one, and an error —
never a silently chosen record — on two or more; the in-memory test
implementation instead returns the first matching record (see the
counterexample). -/
theorem lambda_token_lookup_cases {ι : Type}
    (decode : ι → Except String Subscriber) (items : List ι) :
    (items = [] →
      lambda_get_subscriber_by_unsubscribe_token decode items = .ok none)
    ∧ (∀ item, items = [item] →
        lambda_get_subscriber_by_unsubscribe_token decode items
          = (decode item).map some)
    ∧ (2 ≤ items.length →
        ∃ e, lambda_get_subscriber_by_unsubscribe_token decode items = .error e) := by
  refine ⟨?_, ?_, ?_⟩
  · rintro rfl
    rfl
  · rintro item rfl
    rfl
  · intro hlen
    match items, hlen with
    | a :: b :: rest, _ => exact ⟨_, rfl⟩

/-- Witness for C6's amended theorem: a two-item query result yields an
error, an empty one yields none. -/
theorem lambda_token_lookup_cases_witness :
    lambda_get_subscriber_by_unsubscribe_token
        (fun s : Subscriber => Except.ok s) [] = .ok none
    ∧ (∃ e, lambda_get_subscriber_by_unsubscribe_token
        (fun s : Subscriber => Except.ok s)
        [⟨"a@x.com", .topN 10, 0, "tok"⟩, ⟨"b@x.com", .topN 10, 0, "tok"⟩]
        = .error e) :=
  ⟨(lambda_token_lookup_cases (fun s => Except.ok s) []).1 rfl,
   (lambda_token_lookup_cases (fun s => Except.ok s)
      [⟨"a@x.com", .topN 10, 0, "tok"⟩, ⟨"b@x.com", .topN 10, 0, "tok"⟩]).2.2
      (by decide)⟩

/-- C7: for every configured strategy, printing then parsing is the identity;
a `TOP_N#`-prefixed string whose numeral parses to a value outside
`{10, 20, 50}`, a `POINT_THRESHOLD#`-prefixed string whose numeral parses to
a value outside `{500, 250, 100}`, and any string with neither prefix, all
parse to an error. -/
theorem strategy_string_roundtrip :
    (∀ s ∈ DigestStrategy.all, strategyFromStr (strategyChars s) = .ok s)
    ∧ (∀ cs n, "TOP_N#".toList.isPrefixOf cs → parseUsize (cs.drop 6) = some n →
        n ∉ TOP_N_VALUES → ∃ e, strategyFromStr cs = .error e)
    ∧ (∀ cs t, "POINT_THRESHOLD#".toList.isPrefixOf cs →
        parseI32 (cs.drop 16) = some t → t ∉ POINT_THRESHOLD_VALUES →
        ∃ e, strategyFromStr cs = .error e)
    ∧ (∀ cs, ¬"TOP_N#".toList.isPrefixOf cs →
        ¬"POINT_THRESHOLD#".toList.isPrefixOf cs →
        ∃ e, strategyFromStr cs = .error e) := by
  refine ⟨by decide, ?_, ?_, ?_⟩
  · intro cs n hpre hparse hmem
    simp only [strategyFromStr, hpre, if_true, hparse, if_neg hmem]
    exact ⟨_, rfl⟩
  · intro cs t hpre hparse hmem
    have hnotTopN : "TOP_N#".toList.isPrefixOf cs = false := by
      obtain ⟨rest, rfl⟩ := (List.isPrefixOf_iff_prefix).mp hpre
      rfl
    simp only [strategyFromStr, hnotTopN, Bool.false_eq_true, if_false, hpre,
      if_true, hparse, if_neg hmem]
    exact ⟨_, rfl⟩
  · intro cs h₁ h₂
    simp only [strategyFromStr, Bool.not_eq_true] at h₁ h₂ ⊢
    simp only [h₁, h₂, Bool.false_eq_true, if_false]
    exact ⟨_, rfl⟩

/-- Witness for C7: `TOP_N#10` round-trips and `TOP_N#999` is rejected. -/
theorem strategy_string_roundtrip_witness :
    strategyFromStr (strategyChars (.topN 10)) = .ok (.topN 10)
    ∧ (∃ e, strategyFromStr "TOP_N#999".toList = .error e) :=
  ⟨strategy_string_roundtrip.1 (.topN 10) (by decide),
   strategy_string_roundtrip.2.1 "TOP_N#999".toList 999 (by decide) (by decide)
     (by decide)⟩

/-- Keys removed when processing a recipient email list: the lowercased keys
of the addresses the validator accepts. -/
def removedKeys (valid : String → Option String) (recips : List String) :
    List String :=
  (recips.filterMap valid).map emailKey

/-- State left by removing a recipient list: subscribers whose key is among
the accepted, lowercased recipient addresses are dropped; all else is kept. -/
def bounceFiltered (valid : String → Option String) (st : InMemoryStorage)
    (recips : List String) : InMemoryStorage :=
  { st with subscribers := st.subscribers.filter (fun kv =>
      decide (kv.1 ∉ removedKeys valid recips)) }

theorem foldl_bounce_remove (valid : String → Option String) :
    ∀ (recips : List String) (st : InMemoryStorage),
      recips.foldl (bounce_remove_subscriber valid) st
        = bounceFiltered valid st recips := by
  intro recips
  induction recips with
  | nil =>
    intro st
    simp [bounceFiltered, removedKeys]
  | cons e rest ih =>
    intro st
    rw [List.foldl_cons, ih]
    cases hv : valid e with
    | none =>
      simp only [bounce_remove_subscriber, hv, bounceFiltered, removedKeys,
        List.filterMap_cons_none hv]
    | some em =>
      simp only [bounce_remove_subscriber, hv, InMemoryStorage.remove_subscriber,
        bounceFiltered, eraseAssoc, List.filter_filter, removedKeys,
        List.filterMap_cons_some hv]
      congr 1
      apply List.filter_congr
      intro kv _
      by_cases h₁ : kv.1 = emailKey em <;>
        by_cases h₂ : kv.1 ∈ (rest.filterMap valid).map emailKey <;>
          simp [h₁, h₂]

/-- C8: `handle_notification` is a hard error for a `Bounce` event missing
its bounce payload or a `Complaint` event missing its complaint payload;
leaves storage untouched for non-`Permanent` bounces and for any other event
type; and for a `Permanent` bounce or a complaint removes exactly the listed
recipients the email validator accepts, by email key (invalid addresses are
skipped without failing the event; pending subscriptions and digests are
untouched). -/
theorem handle_notification_spec (valid : String → Option String)
    (n : SesNotification) (st : InMemoryStorage) :
    (n.event_type = "Bounce" → n.bounce = none →
      ∃ e, handle_notification valid n st = .error e)
    ∧ (n.event_type = "Complaint" → n.complaint = none →
        ∃ e, handle_notification valid n st = .error e)
    ∧ (∀ b, n.event_type = "Bounce" → n.bounce = some b →
        b.bounce_type ≠ "Permanent" → handle_notification valid n st = .ok st)
    ∧ (n.event_type ≠ "Bounce" → n.event_type ≠ "Complaint" →
        handle_notification valid n st = .ok st)
    ∧ (∀ b, n.event_type = "Bounce" → n.bounce = some b →
        b.bounce_type = "Permanent" →
        handle_notification valid n st = .ok (bounceFiltered valid st
          (b.bounced_recipients.map BouncedRecipient.email_address)))
    ∧ (∀ c, n.event_type = "Complaint" → n.complaint = some c →
        handle_notification valid n st = .ok (bounceFiltered valid st
          (c.complained_recipients.map ComplainedRecipient.email_address))) := by
  refine ⟨?_, ?_, ?_, ?_, ?_, ?_⟩
  · intro het hb
    simp only [handle_notification, het, if_true, hb]
    exact ⟨_, rfl⟩
  · intro het hc
    rw [handle_notification, if_neg (by rw [het]; decide), if_pos het, hc]
    exact ⟨_, rfl⟩
  · intro b het hb hperm
    simp [handle_notification, het, hb, hperm]
  · intro h₁ h₂
    simp [handle_notification, h₁, h₂]
  · intro b het hb hperm
    simp only [handle_notification, het, if_true, hb, hperm, if_pos rfl]
    rw [← List.foldl_map BouncedRecipient.email_address
      (bounce_remove_subscriber valid), foldl_bounce_remove]
  · intro c het hc
    rw [handle_notification, if_neg (by rw [het]; decide), if_pos het, hc]
    simp only
    rw [← List.foldl_map ComplainedRecipient.email_address
      (bounce_remove_subscriber valid), foldl_bounce_remove]

/-- Witness for C8 at the spec's §8 scenario: a permanent bounce listing two
subscribed addresses removes both and leaves a third subscriber (and the
pending table) untouched; recipient validation accepts every address here. -/
theorem handle_notification_spec_witness :
    handle_notification (fun s => some s)
      ⟨"Bounce", some ⟨"Permanent",
        [⟨"a@x.com"⟩, ⟨"b@x.com"⟩]⟩, none⟩
      ⟨[("a@x.com", ⟨"a@x.com", .topN 10, 0, "t1"⟩),
        ("b@x.com", ⟨"b@x.com", .topN 10, 0, "t2"⟩),
        ("c@x.com", ⟨"c@x.com", .topN 10, 0, "t3"⟩)], [], []⟩
      = .ok ⟨[("c@x.com", ⟨"c@x.com", .topN 10, 0, "t3"⟩)], [], []⟩ := by
  have h := (handle_notification_spec (fun s => some s)
      ⟨"Bounce", some ⟨"Permanent", [⟨"a@x.com"⟩, ⟨"b@x.com"⟩]⟩, none⟩
      ⟨[("a@x.com", ⟨"a@x.com", .topN 10, 0, "t1"⟩),
        ("b@x.com", ⟨"b@x.com", .topN 10, 0, "t2"⟩),
        ("c@x.com", ⟨"c@x.com", .topN 10, 0, "t3"⟩)], [], []⟩).2.2.2.2.1
    ⟨"Permanent", [⟨"a@x.com"⟩, ⟨"b@x.com"⟩]⟩ rfl rfl rfl
  rw [h]
  decide

/-! Round-trip of decimal printing and parsing, needed for the encoder
claims. -/

theorem parseDigitsAux_append (xs ys : List Char) :
    ∀ acc, parseDigitsAux acc (xs ++ ys)
      = (parseDigitsAux acc xs).bind fun v => parseDigitsAux v ys := by
  induction xs with
  | nil => intro acc; rfl
  | cons c cs ih =>
    intro acc
    simp only [List.cons_append, parseDigitsAux, List.append_eq]
    by_cases hc : c.isDigit
    · rw [if_pos hc, if_pos hc, ih]
    · rw [if_neg hc, if_neg hc]
      rfl

theorem digitChar_isDigit : ∀ d, d < 10 → (Nat.digitChar d).isDigit = true := by
  decide

theorem digitChar_toNat : ∀ d, d < 10 → (Nat.digitChar d).toNat - 48 = d := by
  decide

theorem natCharsAux_parse : ∀ (fuel n : Nat), n < 10 ^ fuel →
    ∀ acc, parseDigitsAux acc (natCharsAux fuel n)
      = some (acc * 10 ^ (natCharsAux fuel n).length + n) := by
  intro fuel
  induction fuel with
  | zero =>
    intro n hn acc
    interval_cases n
    simp [natCharsAux, parseDigitsAux]
  | succ fuel ih =>
    intro n hn acc
    by_cases h10 : n < 10
    · simp only [natCharsAux, if_pos h10, parseDigitsAux,
        digitChar_isDigit n h10, if_true, digitChar_toNat n h10]
      simp
    · have hdiv : n / 10 < 10 ^ fuel := by
        rw [pow_succ] at hn
        omega
      have hm : n % 10 < 10 := Nat.mod_lt n (by omega)
      simp only [natCharsAux, if_neg h10]
      rw [parseDigitsAux_append _ _ acc, ih (n / 10) hdiv acc]
      simp only [Option.some_bind, parseDigitsAux, digitChar_isDigit _ hm,
        if_true, digitChar_toNat _ hm, List.length_append, List.length_cons,
        List.length_nil, Nat.zero_add]
      congr 1
      rw [pow_succ]
      calc (acc * 10 ^ (natCharsAux fuel (n / 10)).length + n / 10) * 10 + n % 10
          = acc * (10 ^ (natCharsAux fuel (n / 10)).length * 10)
            + (n / 10 * 10 + n % 10) := by ring
        _ = acc * (10 ^ (natCharsAux fuel (n / 10)).length * 10) + n := by
            congr 1
            omega

theorem natCharsAux_ne_nil (fuel n : Nat) : natCharsAux (fuel + 1) n ≠ [] := by
  simp only [natCharsAux]
  by_cases h10 : n < 10 <;> simp [h10]

theorem natCharsAux_all_digits : ∀ (fuel n : Nat), ∀ c ∈ natCharsAux fuel n,
    c.isDigit = true := by
  intro fuel
  induction fuel with
  | zero => intro n c hc; simp [natCharsAux] at hc
  | succ fuel ih =>
    intro n c hc
    simp only [natCharsAux] at hc
    by_cases h10 : n < 10
    · rw [if_pos h10] at hc
      simp only [List.mem_singleton] at hc
      exact hc ▸ digitChar_isDigit n h10
    · rw [if_neg h10] at hc
      rcases List.mem_append.mp hc with h | h
      · exact ih (n / 10) c h
      · simp only [List.mem_singleton] at h
        exact h ▸ digitChar_isDigit _ (Nat.mod_lt n (by omega))

theorem parseNatDigits_natChars (n : Nat) (hn : n < 10 ^ 30) :
    parseNatDigits (natChars n) = some n := by
  have hne := natCharsAux_ne_nil 29 n
  simp only [parseNatDigits, natChars, List.isEmpty_iff]
  rw [if_neg hne, natCharsAux_parse 30 n hn 0]
  simp

theorem parseI64_intChars (i : Int) (hlo : -(2 ^ 63) ≤ i) (hhi : i < 2 ^ 63) :
    parseI64 (intChars i) = some i := by
  by_cases hneg : i < 0
  · have h63 : (i.natAbs : Int) ≤ 2 ^ 63 := by omega
    have habs30 : i.natAbs < 10 ^ 30 := by
      have h1 : (i.natAbs : Int) < 10 ^ 30 := lt_of_le_of_lt h63 (by norm_num)
      exact_mod_cast h1
    have hp : parseNatDigits (natChars i.natAbs) = some i.natAbs :=
      parseNatDigits_natChars _ habs30
    have hic : intChars i = '-' :: natChars i.natAbs := by
      rw [intChars, if_pos hneg]
    have hcast : -(i.natAbs : Int) = i := by omega
    rw [hic]
    simp only [parseI64, if_pos rfl, hp, Option.some_bind]
    rw [if_pos h63, hcast]
    simp
  · have h0 : 0 ≤ i := le_of_not_lt hneg
    have htn : (i.toNat : Int) = i := Int.toNat_of_nonneg h0
    have htn63 : (i.toNat : Int) < 2 ^ 63 := by omega
    have htn30 : i.toNat < 10 ^ 30 := by
      have h1 : (i.toNat : Int) < 10 ^ 30 := lt_of_lt_of_le htn63 (by norm_num)
      exact_mod_cast h1
    have hne : natChars i.toNat ≠ [] := natCharsAux_ne_nil 29 i.toNat
    have hp : parseNatDigits (natChars i.toNat) = some i.toNat :=
      parseNatDigits_natChars _ htn30
    have hic : intChars i = natChars i.toNat := by
      rw [intChars, if_neg hneg]
    obtain ⟨c, rest, hcr⟩ : ∃ c rest, natChars i.toNat = c :: rest := by
      cases hcs : natChars i.toNat with
      | nil => exact absurd hcs hne
      | cons c rest => exact ⟨c, rest, rfl⟩
    have hcdig : c.isDigit = true :=
      natCharsAux_all_digits 30 i.toNat c
        (by rw [← natChars, hcr]; exact List.mem_cons_self c rest)
    have hcm : c ≠ '-' := fun h => absurd (h ▸ hcdig) (by decide)
    have hcp : c ≠ '+' := fun h => absurd (h ▸ hcdig) (by decide)
    rw [hic, hcr]
    simp only [parseI64]
    rw [if_neg hcm, if_neg hcp, ← hcr, hp, Option.some_bind, if_pos htn63, htn]

mutual
theorem rtJson : ∀ j : Json, jsonIntDoc j = true →
    av_to_json (json_to_av j) = j
  | .null, _ => rfl
  | .bool _, _ => rfl
  | .str _, _ => rfl
  | .numFloat _, h => by simp [jsonIntDoc] at h
  | .num i, h => by
    have hb : -(2 ^ 63) ≤ i ∧ i < 2 ^ 63 := by
      simpa [jsonIntDoc] using h
    simp only [json_to_av, av_to_json, parseI64_intChars i hb.1 hb.2]
  | .arr l, h => by
    have h' : jsonListIntDoc l = true := by simpa [jsonIntDoc] using h
    simp only [json_to_av, av_to_json, rtJsonList l h']
  | .obj m, h => by
    have h' : jsonObjIntDoc m = true := by simpa [jsonIntDoc] using h
    simp only [json_to_av, av_to_json, rtJsonObj m h']

theorem rtJsonList : ∀ l : JsonList, jsonListIntDoc l = true →
    avList_to_json (jsonList_to_av l) = l
  | .nil, _ => rfl
  | .cons j l, h => by
    have h' : jsonIntDoc j = true ∧ jsonListIntDoc l = true := by
      simpa [jsonListIntDoc, Bool.and_eq_true] using h
    simp only [jsonList_to_av, avList_to_json, rtJson j h'.1, rtJsonList l h'.2]

theorem rtJsonObj : ∀ m : JsonObj, jsonObjIntDoc m = true →
    avMap_to_json (jsonObj_to_av m) = m
  | .nil, _ => rfl
  | .cons k j m, h => by
    have h' : jsonIntDoc j = true ∧ jsonObjIntDoc m = true := by
      simpa [jsonObjIntDoc, Bool.and_eq_true] using h
    simp only [jsonObj_to_av, avMap_to_json, rtJson j h'.1, rtJsonObj m h'.2]
end

/-- Counterexample for C9 as stated: the integer number
`18446744073709551615` (`u64::MAX`, a value `serde_json` represents exactly)
encodes to `N "18446744073709551615"`, whose decode fails the `i64` parse and
falls through to the floating-point branch, yielding a float number — a
different value than the original integer. -/
theorem av_json_u64_counterexample :
    av_to_json (json_to_av (Json.num 18446744073709551615))
      = Json.numFloat (natChars 18446744073709551615)
    ∧ av_to_json (json_to_av (Json.num 18446744073709551615))
      ≠ Json.num 18446744073709551615 := by
  constructor
  · decide
  · decide

/-- C9 (amended): encode-then-decode is the identity on every document —
including nested array-of-map — whose numbers are integer numbers in the
`i64` range; integer numbers above `i64::MAX` instead decode through the
floating-point fallback (see the counterexample), and the float/raw-string
fallback order is as the decoder defines. -/
theorem av_json_roundtrip_int_docs (j : Json) (h : jsonIntDoc j = true) :
    av_to_json (json_to_av j) = j :=
  rtJson j h

/-- Witness for C9 at a nested array-of-map document with null, bool, integer
and string leaves. -/
theorem av_json_roundtrip_int_docs_witness :
    jsonIntDoc (Json.arr (.cons (.obj (.cons "k" (.num (-5))
        (.cons "s" (.str "x") (.cons "b" (.bool true)
          (.cons "n" .null .nil))))) (.cons (.num 42) .nil))) = true
    ∧ av_to_json (json_to_av (Json.arr (.cons (.obj (.cons "k" (.num (-5))
        (.cons "s" (.str "x") (.cons "b" (.bool true)
          (.cons "n" .null .nil))))) (.cons (.num 42) .nil))))
      = Json.arr (.cons (.obj (.cons "k" (.num (-5))
        (.cons "s" (.str "x") (.cons "b" (.bool true)
          (.cons "n" .null .nil))))) (.cons (.num 42) .nil)) :=
  ⟨by decide,
   av_json_roundtrip_int_docs _ (by decide)⟩
